import Mathlib

/-!
Verification of `pkg/commons-node/process.js` (nuclide): the process-table
parser, the process-tree termination logic, the kill lifecycle, and the
process-event stream combinators, shallowly embedded in Lean.

JavaScript numbers that can be the not-a-number sentinel (the result of
`parseInt` on a non-numeric string) are modelled as `Option Int`, with
`none` standing for `NaN`; strict equality `===` on such values is then
`Option` equality, which correctly makes `NaN === x` false for every `x`.
-/

namespace Proc

/-- JS whitespace characters relevant to the ASCII inputs the parser sees
(matched by `\s` and trimmed by `String.prototype.trim`). -/
def isWsChar (c : Char) : Bool :=
  c = ' ' || c = '\t' || c = '\n' || c = '\r' || c = '\x0b' || c = '\x0c'

/-- `String.prototype.trim`: strip leading and trailing whitespace. -/
def jsTrim (s : String) : String :=
  String.mk (((s.data.dropWhile isWsChar).reverse.dropWhile isWsChar).reverse)

/-- `psOutput.split(/\n|\r\n/)`: split on a lone `\n` or on the pair `\r\n`
(the `\n` alternative is tried first at each position, which on `\r\n` still
matches the second alternative at the `\r`). -/
def splitLinesAux : List Char → List Char → List String
  | [], cur => [String.mk cur.reverse]
  | '\n' :: rest, cur => String.mk cur.reverse :: splitLinesAux rest []
  | '\r' :: '\n' :: rest, cur => String.mk cur.reverse :: splitLinesAux rest []
  | c :: rest, cur => splitLinesAux rest (c :: cur)

def jsSplitLines (s : String) : List String :=
  splitLinesAux s.data []

mutual

/-- `line.split(/\s+/)`, scanning inside a token: on a whitespace character the
current token is emitted and the separator run is skipped. -/
def splitWsGo : List Char → List Char → List String
  | [], cur => [String.mk cur.reverse]
  | c :: rest, cur =>
    if isWsChar c then String.mk cur.reverse :: splitWsSkip rest
    else splitWsGo rest (c :: cur)

/-- `line.split(/\s+/)`, scanning inside a separator run: a separator that
extends to the end of the string leaves a trailing empty piece, as in JS. -/
def splitWsSkip : List Char → List String
  | [] => [""]
  | c :: rest => if isWsChar c then splitWsSkip rest else splitWsGo rest [c]

end

/-- `str.split(/\s+/)`: split on runs of whitespace. The empty string has no
match of `\s+`, so it yields the one-element list `[""]`, as in JS. -/
def jsSplitWs (s : String) : List String :=
  splitWsGo s.data []

def isDigitChar (c : Char) : Bool :=
  '0' ≤ c && c ≤ '9'

def digitsToNat (ds : List Char) : Nat :=
  ds.foldl (fun acc c => acc * 10 + (c.toNat - 48)) 0

/-- `parseInt(str, 10)`: skip leading whitespace, read an optional sign, then
the maximal run of decimal digits; no digits means `NaN` (here `none`). -/
def jsParseInt (s : String) : Option Int :=
  let cs := s.data.dropWhile isWsChar
  let signAndRest : Int × List Char :=
    match cs with
    | '-' :: r => (-1, r)
    | '+' :: r => (1, r)
    | _ => (1, cs)
  let ds := signAndRest.2.takeWhile isDigitChar
  if ds.isEmpty then none
  else some (signAndRest.1 * (digitsToNat ds : Int))

/-- `ProcessInfo` records of `process-rpc-types`: `parentPid` and `pid` are JS
numbers that may be `NaN` (modelled `none`). -/
structure ProcessInfo where
  command : String
  parentPid : Option Int
  pid : Option Int
deriving DecidableEq, Repr

/-- The per-line body of `parsePsOutput`'s `lines.map`: trim, split on
whitespace runs, parse the first two columns as integers, and rejoin the rest
with single spaces. A missing column destructures to `undefined`, and
`parseInt(undefined, 10)` is `NaN`, hence `none`. -/
def parsePsLine (line : String) : ProcessInfo :=
  let columns := jsSplitWs (jsTrim line)
  { command := String.intercalate " " (columns.drop 2)
    parentPid := match columns.get? 0 with
      | some c => jsParseInt c
      | none => none
    pid := match columns.get? 1 with
      | some c => jsParseInt c
      | none => none }

/-- `parsePsOutput`: drop the header line, parse each remaining line. -/
def parsePsOutput (psOutput : String) : List ProcessInfo :=
  let lines := (jsSplitLines psOutput).drop 1
  lines.map parsePsLine

/-- `getChildrenOfProcess`, with the awaited `psTree()` table passed as an
argument (obtaining the table is I/O): keep the records whose `parentPid`
strictly equals (`===`) the given numeric process id. -/
def getChildrenOfProcess (table : List ProcessInfo) (processId : Int) :
    List ProcessInfo :=
  table.filter (fun processInfo => processInfo.parentPid = some processId)

/-- The outcome of the `Promise` a kill path returns: resolved, or rejected
with the value passed to `reject` (possibly `null`, here `none`). -/
inductive PromiseResult where
  | resolved
  | rejected (error : Option String)
deriving DecidableEq, Repr

/-- One OS-level termination action performed by the kill paths. -/
inductive TermAction where
  /-- `childProcess.kill()` on the target (default signal SIGTERM). -/
  | killTarget
  /-- `process.kill(child.pid, 'SIGTERM')` on a child found in the table;
  the pid comes from a parsed record, so it may be the `NaN` sentinel. -/
  | sigterm (pid : Option Int)
  /-- `child_process.exec("taskkill /pid <pid> /T /F")`. -/
  | taskkillTree (pid : Int)
deriving DecidableEq, Repr

/-- The mutable per-handle state the kill paths touch: the numeric pid and the
`wasKilled` flag that `_killProcess` sets. -/
structure ChildProcessHandle where
  pid : Int
  wasKilled : Bool
deriving DecidableEq, Repr

/-- `killWindowsProcessTree(pid)`: execs `taskkill /pid <pid> /T /F`; the exec
callback receives `execError` (`none` meaning the command succeeded) and runs
`if (error == null) reject(error); else resolve();` — so the promise is
rejected with `null` on success and resolved on failure, exactly as written. -/
def killWindowsProcessTree (pid : Int) (execError : Option String) :
    List TermAction × PromiseResult :=
  ([TermAction.taskkillTree pid],
    match execError with
    | none => PromiseResult.rejected none
    | some _ => PromiseResult.resolved)

/-- `killUnixProcessTree(childProcess)`: awaits the children of the target's
pid, sends SIGTERM to each, then calls `childProcess.kill()` on the target. -/
def killUnixProcessTree (table : List ProcessInfo) (h : ChildProcessHandle) :
    List TermAction :=
  (getChildrenOfProcess table h.pid).map (fun child => TermAction.sigterm child.pid)
    ++ [TermAction.killTarget]

/-- The state, actions and promise outcome of one `_killProcess` call. -/
structure KillRun where
  handle : ChildProcessHandle
  actions : List TermAction
  result : PromiseResult
deriving DecidableEq, Repr

/-- `_killProcess(childProcess, killTree)`: sets `wasKilled`, then either kills
just the target (`!killTree`), or dispatches on the platform (`/^win/` test)
to the Windows or Unix tree kill. `table` is the awaited process table of the
Unix path, `execError` the exec outcome of the Windows path. -/
def killProcessImpl (killTree isWindows : Bool) (table : List ProcessInfo)
    (execError : Option String) (h : ChildProcessHandle) : KillRun :=
  let h2 : ChildProcessHandle := { h with wasKilled := true }
  if !killTree then
    { handle := h2, actions := [TermAction.killTarget], result := PromiseResult.resolved }
  else if isWindows then
    let r := killWindowsProcessTree h.pid execError
    { handle := h2, actions := r.1, result := r.2 }
  else
    { handle := h2, actions := killUnixProcessTree table h2,
      result := PromiseResult.resolved }

/-- What `killProcess`'s promise handler does: nothing on resolution, a log
line on rejection. No exception channel exists toward the caller. -/
inductive KillLog where
  | silent
  | loggedFailure
deriving DecidableEq, Repr

/-- `killProcess(childProcess, killTree)`: runs `_killProcess` and attaches a
no-op resolution handler and a logging rejection handler, so a rejection is
consumed as a log entry and the caller always gets `void`. -/
def killProcess (killTree isWindows : Bool) (table : List ProcessInfo)
    (execError : Option String) (h : ChildProcessHandle) : KillRun × KillLog :=
  let run := killProcessImpl killTree isWindows table execError h
  (run,
    match run.result with
    | PromiseResult.resolved => KillLog.silent
    | PromiseResult.rejected _ => KillLog.loggedFailure)

/-- The `.finally` teardown of `_createProcessStream`: kill only when the
handle is not already kill-requested and the stream did not finish naturally
(`if (!process.wasKilled && !finished) killProcess(...)`). -/
def finallyTeardown (killTree isWindows : Bool) (table : List ProcessInfo)
    (execError : Option String) (finished : Bool) (h : ChildProcessHandle) :
    Option (KillRun × KillLog) :=
  if !h.wasKilled && !finished then
    some (killProcess killTree isWindows table execError h)
  else none

/-- The fields of a freshly obtained handle that `_createProcessStream`'s
invariant reads: node's `exitCode` (null while running) and `killed`. -/
structure SpawnedHandle where
  exitCode : Option Int
  killed : Bool
deriving DecidableEq, Repr

/-- The subscription-time check of `_createProcessStream`:
`invariant(process.exitCode == null && !process.killed, msg)` — throws the
invariant-violation message unless the handle is fresh. -/
def createProcessStreamCheck (h : SpawnedHandle) : Except String SpawnedHandle :=
  if h.exitCode == none && !h.killed then Except.ok h
  else Except.error "Process already exited. (This indicates a race condition in Nuclide.)"

/-- `ProcessExitMessage`: `{kind: 'exit', exitCode, signal}` with both fields
nullable. -/
structure ProcessExitMessage where
  exitCode : Option Int
  signal : Option String
deriving DecidableEq, Repr

/-- `observeProcessExitMessage(process)`, as a function of the sequence of
`exit` notifications `(exitCode, signal)` the handle emits: map each to an
exit message, drop those whose signal is `'SIGUSR1'`, take the first. -/
def observeProcessExitMessage (exitEvents : List (Option Int × Option String)) :
    List ProcessExitMessage :=
  ((exitEvents.map (fun p => ProcessExitMessage.mk p.1 p.2)).filter
    (fun message => message.signal != some "SIGUSR1")).take 1

/-- `ProcessMessage`: the tagged union the output stream emits. -/
inductive ProcessMessage where
  | stdout (data : String)
  | stderr (data : String)
  | err (error : String)
  | exit (message : ProcessExitMessage)
deriving DecidableEq, Repr

/-- The `kind` tag of a `ProcessMessage` as the JS code compares it. -/
def eventKind : ProcessMessage → String
  | ProcessMessage.stdout _ => "stdout"
  | ProcessMessage.stderr _ => "stderr"
  | ProcessMessage.err _ => "error"
  | ProcessMessage.exit _ => "exit"

/-- Modelled from the spec: `takeWhileInclusive` is imported from
`./observable`, which is not under `src/`. The spec: the sequence is cut off
at the first terminal variant encountered — elements are passed through while
the predicate holds, the first failing element is emitted, then the sequence
ends. -/
def takeWhileInclusive {α : Type} (p : α → Bool) : List α → List α
  | [] => []
  | x :: xs => if p x then x :: takeWhileInclusive p xs else [x]

/-- The merged stream of `getOutputStream`, as a function of the interleaving
`merged` that `Observable.merge(Observable.merge(stdout, stderr).concat(exit),
error)` produced: cut off inclusively at the first event whose kind is
`'error'` or `'exit'`. -/
def getOutputStreamEvents (merged : List ProcessMessage) : List ProcessMessage :=
  takeWhileInclusive
    (fun event => eventKind event != "error" && eventKind event != "exit") merged

/-- A terminal variant of `ProcessMessage` (kind `'error'` or `'exit'`). -/
def isTerminalEvent (event : ProcessMessage) : Bool :=
  eventKind event == "error" || eventKind event == "exit"

/-- `exit.delay(100)`: the replayed terminal event, with its emission time
shifted by the 100 ms grace period. Timed events are `(time, payload)`. -/
def closeSignal (exitEvent : Option (Nat × ProcessExitMessage)) :
    Option (Nat × ProcessExitMessage) :=
  exitEvent.map (fun p => (p.1 + 100, p.2))

/-- `.takeUntil(notifier)` on a timed chunk stream against an at-most-one-shot
notifier: chunks strictly before the notifier's emission time pass; with no
notifier emission the stream is untouched. -/
def takeUntilEv (notifier : Option (Nat × ProcessExitMessage))
    (chunks : List (Nat × String)) : List (Nat × String) :=
  match notifier with
  | none => chunks
  | some stop => chunks.filter (fun c => c.1 < stop.1)

/-- The stdout/stderr gating of `getOutputStream`:
`observeStream(process.stdout).takeUntil(close)` with `close = exit.delay(100)`
— which raw chunks are still captured given the terminal event. -/
def gatedOutputChunks (exitEvent : Option (Nat × ProcessExitMessage))
    (chunks : List (Nat × String)) : List (Nat × String) :=
  takeUntilEv (closeSignal exitEvent) chunks

/-- C8: `parsePsOutput` discards the header line and parses each subsequent
line by trimming, splitting on whitespace runs, taking the first two columns
as `parentPid` and `pid` and rejoining the rest as the command; the header
`PPID PID COMMAND` followed by `1 100 my command here` parses to the single
record with parentPid 1, pid 100 and command "my command here". -/
theorem C8_parse_ps_output_round_trip :
    parsePsOutput "PPID PID COMMAND\n1 100 my command here" =
      [{ command := "my command here", parentPid := some 1, pid := some 100 }] := by
  decide

/-- C10: `parsePsOutput` produces exactly one record per input line after the
header — its output length is the number of split lines minus one — and a
blank line parses to a record with the `NaN` sentinel in both id fields and an
empty command, as the trailing-newline example shows. -/
theorem C10_one_record_per_line :
    (∀ s, (parsePsOutput s).length = (jsSplitLines s).length - 1) ∧
    parsePsLine "" = { command := "", parentPid := none, pid := none } ∧
    parsePsOutput "PPID PID COMMAND\n1 100 foo\n" =
      [{ command := "foo", parentPid := some 1, pid := some 100 },
       { command := "", parentPid := none, pid := none }] := by
  refine ⟨fun s => ?_, by decide, by decide⟩
  simp [parsePsOutput]

/-- C9: `getChildrenOfProcess` returns exactly the table records whose
`parentPid` strictly equals the given numeric pid; a record whose parent-id
column parsed to the `NaN` sentinel is never returned for any numeric pid;
and on the table with parent ids 1, 50, 50 and pids 50, 51, 52 the children
of 50 are exactly the records with pids 51 and 52. -/
theorem C9_children_filter :
    (∀ (table : List ProcessInfo) (p : Int) (r : ProcessInfo),
      r ∈ getChildrenOfProcess table p ↔ r ∈ table ∧ r.parentPid = some p) ∧
    (∀ (table : List ProcessInfo) (p : Int) (r : ProcessInfo),
      r.parentPid = none → r ∉ getChildrenOfProcess table p) ∧
    (getChildrenOfProcess
        (parsePsOutput "PPID PID COMMAND\n1 50 a\n50 51 b\n50 52 c") 50).map
        (fun r => r.pid) = [some 51, some 52] := by
  refine ⟨?_, ?_, by decide⟩
  · intro table p r
    simp [getChildrenOfProcess, List.mem_filter]
  · intro table p r hnan hmem
    simp [getChildrenOfProcess, List.mem_filter, hnan] at hmem

/-- C6: the subscription-time invariant of `_createProcessStream` accepts the
handle exactly when its exit code is unset and it has not been killed, and
throws the invariant-violation error exactly when the handle has already
exited or already been killed. -/
theorem C6_subscription_invariant :
    ∀ h : SpawnedHandle,
      (createProcessStreamCheck h = Except.ok h ↔
        (h.exitCode = none ∧ h.killed = false)) ∧
      ((∃ msg, createProcessStreamCheck h = Except.error msg) ↔
        (h.exitCode ≠ none ∨ h.killed = true)) := by
  intro h
  obtain ⟨ec, k⟩ := h
  cases ec <;> cases k <;> simp [createProcessStreamCheck]

/-- C5: `observeProcessExitMessage` produces no terminal message for exit
notifications carrying signal SIGUSR1 and emits exactly the first notification
with any other signal or exit code, as the single exit message; with no such
notification it emits nothing. -/
theorem C5_sigusr1_filtered :
    (∀ evs : List (Option Int × Option String),
      observeProcessExitMessage evs =
        match evs.find? (fun p => p.2 != some "SIGUSR1") with
        | some p => [ProcessExitMessage.mk p.1 p.2]
        | none => []) ∧
    observeProcessExitMessage [(none, some "SIGUSR1"), (some 0, none)] =
      [{ exitCode := some 0, signal := none }] := by
  refine ⟨?_, by decide⟩
  intro evs
  induction evs with
  | nil => rfl
  | cons p evs ih =>
    by_cases hp : p.2 = some "SIGUSR1"
    · simp only [observeProcessExitMessage] at ih
      simp [observeProcessExitMessage, List.find?_cons, hp, ih]
    · simp [observeProcessExitMessage, List.find?_cons, hp]

/-- C1: the Windows tree-kill branches are inverted — when `taskkill` succeeds
(exec error is null) the promise is rejected (so `killProcess` logs a
failure), and when `taskkill` fails the promise resolves and the failure is
silently discarded, contradicting the claim that success completes
successfully and failure is logged. -/
theorem C1_taskkill_inverted :
    (killWindowsProcessTree 42 none).2 = PromiseResult.rejected none ∧
    (killWindowsProcessTree 42 (some "Access is denied.")).2 = PromiseResult.resolved ∧
    (killProcess true true [] none ⟨42, false⟩).2 = KillLog.loggedFailure ∧
    (killProcess true true [] (some "Access is denied.") ⟨42, false⟩).2 =
      KillLog.silent := by
  decide

/-- C2 counterexample: two successive `killProcess` calls on the same handle
(non-tree mode, fresh handle with pid 123) perform the underlying
`childProcess.kill()` action twice — not at most once as the claim states. -/
theorem C2_counterexample :
    (killProcess false false [] none ⟨123, false⟩).1.actions ++
      (killProcess false false [] none
        (killProcess false false [] none ⟨123, false⟩).1.handle).1.actions =
      [TermAction.killTarget, TermAction.killTarget] ∧
    ¬ (((killProcess false false [] none ⟨123, false⟩).1.actions ++
        (killProcess false false [] none
          (killProcess false false [] none ⟨123, false⟩).1.handle).1.actions).length
        ≤ 1) := by
  decide

/-- C2 amended: `killProcess` never raises to the caller (its outcome is only
ever silence or a log entry), each call sets the per-handle `wasKilled` flag,
the automatic stream-teardown kill is a no-op on an already-kill-requested
handle, but a direct second `killProcess` call still performs termination
actions — the flag does not gate direct calls. -/
theorem C2_kill_amended :
    ∀ (killTree isWindows : Bool) (table : List ProcessInfo)
      (execError : Option String) (h : ChildProcessHandle),
      ((killProcess killTree isWindows table execError h).1.handle.wasKilled = true) ∧
      ((killProcess killTree isWindows table execError h).2 = KillLog.silent ∨
        (killProcess killTree isWindows table execError h).2 = KillLog.loggedFailure) ∧
      (∀ finished, finallyTeardown killTree isWindows table execError finished
          (killProcess killTree isWindows table execError h).1.handle = none) ∧
      ((killProcess killTree isWindows table execError h).1.actions ≠ []) := by
  intro kt iw table e h
  cases kt <;> cases iw <;> cases e <;>
    simp [killProcess, killProcessImpl, killWindowsProcessTree,
      killUnixProcessTree, finallyTeardown]

/-- C7: `killUnixProcessTree` sends SIGTERM to exactly those process-table
entries whose parent pid equals the target's pid (immediate children only),
and afterwards — as the final action — kills the target itself. -/
theorem C7_unix_tree_kill :
    ∀ (table : List ProcessInfo) (h : ChildProcessHandle),
      ∃ pre, killUnixProcessTree table h = pre ++ [TermAction.killTarget] ∧
        (∀ q, TermAction.sigterm q ∈ pre ↔
          ∃ r ∈ table, r.parentPid = some h.pid ∧ r.pid = q) ∧
        (∀ a ∈ pre, ∃ q, a = TermAction.sigterm q) := by
  intro table h
  refine ⟨_, rfl, ?_, ?_⟩
  · intro q
    simp only [List.mem_map, getChildrenOfProcess, List.mem_filter,
      decide_eq_true_eq, TermAction.sigterm.injEq]
    constructor
    · rintro ⟨c, ⟨hc, hpp⟩, rfl⟩
      exact ⟨c, hc, hpp, rfl⟩
    · rintro ⟨r, hr, hpp, rfl⟩
      exact ⟨r, ⟨hr, hpp⟩, rfl⟩
  · intro a ha
    obtain ⟨c, _, rfl⟩ := List.mem_map.mp ha
    exact ⟨c.pid, rfl⟩

/-- C4: the close signal is the terminal event delayed by exactly 100 ms, and
a stdout/stderr chunk is captured if and only if it arrives strictly before
that delayed signal — so output delivered after exit but within the 100 ms
grace window is still emitted. -/
theorem C4_grace_period_gating :
    ∀ (te : Nat) (m : ProcessExitMessage) (chunks : List (Nat × String))
      (t : Nat) (d : String),
      closeSignal (some (te, m)) = some (te + 100, m) ∧
      ((t, d) ∈ gatedOutputChunks (some (te, m)) chunks ↔
        (t, d) ∈ chunks ∧ t < te + 100) := by
  intro te m chunks t d
  refine ⟨rfl, ?_⟩
  simp [gatedOutputChunks, takeUntilEv, closeSignal, List.mem_filter]

/-- A list containing an element failing the predicate is cut by
`takeWhileInclusive` into a passing part followed by exactly one failing
element. -/
theorem takeWhileInclusive_cut {α : Type} (p : α → Bool) (l : List α)
    (hl : ∃ e ∈ l, p e = false) :
    ∃ pre last, takeWhileInclusive p l = pre ++ [last] ∧ p last = false ∧
      ∀ x ∈ pre, p x = true := by
  induction l with
  | nil => simp at hl
  | cons x xs ih =>
    by_cases hx : p x = true
    · have hxs : ∃ e ∈ xs, p e = false := by
        obtain ⟨e, he, hpe⟩ := hl
        rcases List.mem_cons.mp he with rfl | hin
        · rw [hx] at hpe; cases hpe
        · exact ⟨e, hin, hpe⟩
      obtain ⟨pre, last, heq, hlast, hpre⟩ := ih hxs
      refine ⟨x :: pre, last, ?_, hlast, ?_⟩
      · simp [takeWhileInclusive, hx, heq]
      · intro y hy
        rcases List.mem_cons.mp hy with rfl | hin
        · exact hx
        · exact hpre y hin
    · refine ⟨[], x, ?_, by simpa using hx, by simp⟩
      simp [takeWhileInclusive, hx]

/-- C3: whenever the merged interleaving contains a terminal variant, the
multiplexer's output is some non-terminal events followed by exactly one
terminal event (error or exit), which is the last element — no event of any
kind follows it. -/
theorem C3_single_terminal (merged : List ProcessMessage)
    (hterm : ∃ e ∈ merged, isTerminalEvent e = true) :
    ∃ pre last, getOutputStreamEvents merged = pre ++ [last] ∧
      isTerminalEvent last = true ∧ (∀ x ∈ pre, isTerminalEvent x = false) ∧
      ((getOutputStreamEvents merged).filter isTerminalEvent).length = 1 := by
  have hped : ∀ e : ProcessMessage,
      (eventKind e != "error" && eventKind e != "exit") = !isTerminalEvent e := by
    intro e; cases e <;> rfl
  have hin : ∃ e ∈ merged,
      (eventKind e != "error" && eventKind e != "exit") = false := by
    obtain ⟨e, he, ht⟩ := hterm
    exact ⟨e, he, by rw [hped, ht]; rfl⟩
  obtain ⟨pre, last, heq, hlast, hpre⟩ :=
    takeWhileInclusive_cut _ merged hin
  have heq2 : getOutputStreamEvents merged = pre ++ [last] := heq
  have hlast2 : isTerminalEvent last = true := by
    rw [hped] at hlast
    simpa using hlast
  have hpre2 : ∀ x ∈ pre, isTerminalEvent x = false := by
    intro x hx
    have := hpre x hx
    rw [hped] at this
    simpa using this
  refine ⟨pre, last, heq2, hlast2, hpre2, ?_⟩
  rw [heq2, List.filter_append]
  have h1 : pre.filter isTerminalEvent = [] := by
    rw [List.filter_eq_nil_iff]
    intro a ha
    simp [hpre2 a ha]
  rw [h1]
  simp [hlast2]

/-- C3 witness: the interleaving of one stdout chunk followed by an exit event
satisfies the hypothesis, and the multiplexer's output on it ends in its
single terminal event. -/
theorem C3_single_terminal_witness :
    (∃ e ∈ [ProcessMessage.stdout "a", ProcessMessage.exit ⟨some 0, none⟩],
      isTerminalEvent e = true) ∧
    (∃ pre last,
      getOutputStreamEvents
          [ProcessMessage.stdout "a", ProcessMessage.exit ⟨some 0, none⟩] =
        pre ++ [last] ∧
      isTerminalEvent last = true ∧ (∀ x ∈ pre, isTerminalEvent x = false) ∧
      ((getOutputStreamEvents
          [ProcessMessage.stdout "a",
           ProcessMessage.exit ⟨some 0, none⟩]).filter isTerminalEvent).length = 1) :=
  ⟨by decide, C3_single_terminal _ (by decide)⟩

end Proc
